import Mathlib

/-!
Shallow embedding of the Fn1 repository (a DexScreener notification bot):
`src/dexscreener.py` (market-data client: pair-snapshot query, synthesis of
transactions from interval statistics, threshold filtering) and `src/bot.py`
(the in-memory subscription store mutated by the /watch, /unwatch and
/settings command handlers).

Modelling conventions:
  * Python floats are modelled as rationals (`ℚ`); all amounts and
    thresholds in the claims are exact decimal values, and only order
    comparisons and one exact division appear in the code.
  * Python ints (timestamps, counts, the time window) are `ℤ`.
  * `datetime.now()` values are parameters (`ℚ` for the sub-second-precision
    value used by the filter comparison, `ℤ` for the integer timestamp
    stamped on synthesized transactions).
  * Exceptions raised inside the `try` bodies are modelled with `Except`;
    the enclosing handler that returns `[]` / `None` is applied on top.
  * Dictionaries parsed from provider JSON become structures with `Option`
    fields (`none` = key absent); `dict.get(k, d)` is `Option.getD`.
  * HTTP responses are inputs of the embedded functions: a constructor for a
    raised transport/JSON error and one for a parsed body with its status.
-/

namespace Fn1

/-- A synthesized transaction dict:
`{'type': ..., 'amountUsd': ..., 'timestamp': ...}` (dexscreener.py 89-99). -/
structure Tx where
  type : String
  amountUsd : ℚ
  timestamp : ℤ
deriving DecidableEq, Repr

/-- Python's `str.lower()` on the strings this program compares (ASCII
direction names): lower-case every character of the string. Defined over the
string's character list so that concrete instances reduce. -/
def pyLower (s : String) : String :=
  String.mk (s.data.map Char.toLower)

/-! ### The filtering step of `get_recent_transactions` (dexscreener.py 102-120)

The loop body applies three `continue` guards in order; a transaction is
appended exactly when all three fail, so the loop is `List.filter` of the
conjunction of the three negated guards, in input order. -/

/-- Guard 1 (lines 106-108): `datetime.now() - tx_time > timedelta(seconds=time_window)`.
`now` is the sub-second-precision current time, `tx.timestamp` an integer. -/
def timeExcludes (now : ℚ) (time_window : ℤ) (tx : Tx) : Bool :=
  decide (now - (tx.timestamp : ℚ) > (time_window : ℚ))

/-- Guard 2 (lines 110-112): `transaction_type and tx['type'].lower() != transaction_type.lower()`.
`transaction_type : str = None` is `Option String`; Python truthiness of the
string also makes `""` falsy, hence the explicit emptiness test. -/
def typeExcludes (transaction_type : Option String) (tx : Tx) : Bool :=
  match transaction_type with
  | none => false
  | some s => decide (s ≠ "") && decide (pyLower tx.type ≠ pyLower s)

/-- Guard 3 (lines 114-116): `float(tx['amountUsd']) < min_amount`. -/
def amountExcludes (min_amount : ℚ) (tx : Tx) : Bool :=
  decide (tx.amountUsd < min_amount)

/-- A transaction survives the loop iff no guard fires (in the code's order). -/
def passesFilter (now : ℚ) (min_amount : ℚ) (transaction_type : Option String)
    (time_window : ℤ) (tx : Tx) : Bool :=
  !timeExcludes now time_window tx &&
  !typeExcludes transaction_type tx &&
  !amountExcludes min_amount tx

/-- The whole filtering loop (lines 103-118): `filtered_transactions`. -/
def filterTransactions (now : ℚ) (min_amount : ℚ) (transaction_type : Option String)
    (time_window : ℤ) (txs : List Tx) : List Tx :=
  txs.filter (passesFilter now min_amount transaction_type time_window)

/-! ### Transaction synthesis from interval statistics (dexscreener.py 79-100) -/

/-- Exceptions that the embedded fragments of `dexscreener.py` can raise. -/
inductive PyErr where
  /-- `txn_data['buys']` / `pair['chainId']` / ... with the key absent. -/
  | keyError
  /-- `volume / 0` (`ZeroDivisionError`). -/
  | zeroDiv
  /-- `response.json()` raised on a malformed payload. -/
  | jsonError
  /-- the HTTP request itself raised (`aiohttp` transport error). -/
  | transport
deriving DecidableEq, Repr

/-- One value of the `txns` dict: per-interval statistics, with either count
key possibly absent. -/
structure TxnData where
  buys : Option ℤ
  sells : Option ℤ
deriving DecidableEq, Repr

/-- Python's true division where the denominator is the int
`txn_data['buys'] + txn_data.get('sells', 0)`: raises `ZeroDivisionError`
when it is zero. -/
def pyDiv (a : ℚ) (b : ℤ) : Except PyErr ℚ :=
  if b = 0 then .error .zeroDiv else .ok (a / (b : ℚ))

/-- The buy branch (lines 87-93): when `'buys' in txn_data`, append
`txn_data['buys']` transactions of type `'buy'`; `range(n)` of a
non-positive `n` is empty, so the loop body (and its division) runs only
when `buys ≥ 1`. -/
def synthBuys (synthNow : ℤ) (vol : ℚ) (td : TxnData) : Except PyErr (List Tx) :=
  match td.buys with
  | none => .ok []
  | some b =>
    if b ≤ 0 then .ok []
    else do
      let amt ← pyDiv vol (b + td.sells.getD 0)
      .ok (List.replicate b.toNat ⟨"buy", amt, synthNow⟩)

/-- The sell branch (lines 94-100): when `'sells' in txn_data`, append
`txn_data['sells']` transactions of type `'sell'`; the loop body reads
`txn_data['buys']` with a plain index, which raises `KeyError` when absent. -/
def synthSells (synthNow : ℤ) (vol : ℚ) (td : TxnData) : Except PyErr (List Tx) :=
  match td.sells with
  | none => .ok []
  | some s =>
    if s ≤ 0 then .ok []
    else
      match td.buys with
      | none => .error .keyError
      | some b => do
        let amt ← pyDiv vol (b + td.sells.getD 0)
        .ok (List.replicate s.toNat ⟨"sell", amt, synthNow⟩)

/-- The synthesis loop over `txns.items()` (lines 86-100), accumulating the
`transactions` list in iteration order; `volume` is the `volume` dict as the
total lookup `volume.get(time_frame, 0)`. All synthesized transactions carry
the integer timestamp of the call time. -/
def synthesize (synthNow : ℤ) (volume : String → ℚ) :
    List (String × TxnData) → Except PyErr (List Tx)
  | [] => .ok []
  | (tf, td) :: rest => do
    let bs ← synthBuys synthNow (volume tf) td
    let ss ← synthSells synthNow (volume tf) td
    let tl ← synthesize synthNow volume rest
    .ok (bs ++ ss ++ tl)

/-! ### The HTTP pipeline of the Market Data Client (dexscreener.py 21-124) -/

/-- Outcome of one `session.get(...)` plus `response.json()`:
either the request raised, or a response whose body failed to parse,
or a parsed body with its status code. -/
inductive Fetch (β : Type) where
  | transportError : Fetch β
  | malformed (status : ℤ) : Fetch β
  | success (status : ℤ) (body : β) : Fetch β

/-- One element of `data['pairs']` as used here: its liquidity key
(`float(x.get('liquidity', {}).get('usd', 0))`, a total chain of defaults)
and the two plainly-indexed keys that may be absent. -/
structure PairEntry where
  liquidity_usd : ℚ
  chainId : Option String
  pairAddress : Option String
deriving DecidableEq, Repr

/-- Body of `GET /dex/tokens/{address}`: `{'pairs': ...}` with the key
possibly absent. -/
structure TokensBody where
  pairs : Option (List PairEntry)

/-- One element of `pair_data['pairs']`: its `txns` dict as ordered items
and its `volume` dict as a total lookup with default 0. -/
structure PairInfo where
  txns : List (String × TxnData)
  volume : String → ℚ

/-- Body of `GET /dex/pairs/{chainId}/{pairAddress}`. -/
structure PairsBody where
  pairs : Option (List PairInfo)

/-- `sorted(pairs, key=lambda x: float(x.get('liquidity',{}).get('usd',0)), reverse=True)`
(lines 29, 62): stable sort, descending by liquidity. -/
def sortPairs (pairs : List PairEntry) : List PairEntry :=
  pairs.mergeSort (fun a b => decide (b.liquidity_usd ≤ a.liquidity_usd))

/-- `get_token_info` (dexscreener.py 21-34): on a 200 response with a truthy
`pairs` list, the most liquid pair; `None` on non-200 status, missing/empty
`pairs`, or any raised exception (the surrounding `try`/`except`). -/
def get_token_info (resp : Fetch TokensBody) : Option PairEntry :=
  match resp with
  | .transportError => none
  | .malformed _ => none
  | .success status body =>
    if status = 200 then
      match body.pairs with
      | none => none
      | some [] => none
      | some (p :: ps) => (sortPairs (p :: ps)).head?
    else none

/-- The `try` body of `get_recent_transactions` (dexscreener.py 49-120),
with the two responses as inputs. `synthNow` is the integer timestamp
stamped on synthesized transactions, `filterNow` the (later or equal)
`datetime.now()` value used by the filter loop. -/
def get_recent_transactions_body (resp1 : Fetch TokensBody) (resp2 : Fetch PairsBody)
    (synthNow : ℤ) (filterNow : ℚ) (min_amount : ℚ) (transaction_type : Option String)
    (time_window : ℤ) : Except PyErr (List Tx) :=
  match resp1 with
  | .transportError => .error .transport
  | .malformed status => if status ≠ 200 then .ok [] else .error .jsonError
  | .success status body =>
    if status ≠ 200 then .ok []
    else
      match body.pairs.getD [] with
      | [] => .ok []
      | p :: ps =>
        -- `pairs[0]` of the sorted non-empty list; the default of `headD`
        -- is never used since sorting preserves non-emptiness.
        let pair := (sortPairs (p :: ps)).headD p
        match pair.chainId with
        | none => .error .keyError
        | some _ =>
          match pair.pairAddress with
          | none => .error .keyError
          | some _ =>
            match resp2 with
            | .transportError => .error .transport
            | .malformed status2 => if status2 ≠ 200 then .ok [] else .error .jsonError
            | .success status2 body2 =>
              if status2 ≠ 200 then .ok []
              else
                match body2.pairs with
                | none => .ok []
                | some [] => .ok []
                | some (pair_info :: _) => do
                  let txs ← synthesize synthNow pair_info.volume pair_info.txns
                  .ok (filterTransactions filterNow min_amount transaction_type
                        time_window txs)

/-- The `except Exception: return []` handler (lines 122-124). -/
def pyCatchNil (r : Except PyErr (List Tx)) : List Tx :=
  match r with
  | .ok txs => txs
  | .error _ => []

/-- `get_recent_transactions` (dexscreener.py 36-124): the `try` body with
every raised exception caught and turned into `[]`. -/
def get_recent_transactions (resp1 : Fetch TokensBody) (resp2 : Fetch PairsBody)
    (synthNow : ℤ) (filterNow : ℚ) (min_amount : ℚ) (transaction_type : Option String)
    (time_window : ℤ) : List Tx :=
  pyCatchNil (get_recent_transactions_body resp1 resp2 synthNow filterNow
    min_amount transaction_type time_window)

/-! ### The bot's in-memory subscription store (bot.py 25-118, 148-163) -/

/-- One user's settings dict (bot.py 62-65):
`{'min_amount': ..., 'transaction_type': ...}`. -/
structure UserConfig where
  min_amount : ℚ
  transaction_type : Option String
deriving DecidableEq, Repr

/-- The bot's mutable state (bot.py 26-29): the three dicts of
`DexScreenerBot.__init__`, as total functions to `Option` (`none` = key
absent). -/
structure BotState where
  watched_tokens : ℤ → Option (List String)
  user_settings : ℤ → Option UserConfig
  last_check : String → Option ℤ

/-- `__init__`: all three dicts empty. -/
def initState : BotState :=
  ⟨fun _ => none, fun _ => none, fun _ => none⟩

/-- Point update of a dict modelled as a function. -/
def upd {α β : Type} [DecidableEq α] (f : α → Option β) (k : α) (v : Option β) :
    α → Option β :=
  fun x => if x = k then v else f x

/-- The replies the modelled handlers can send, one constructor per
`reply_text` branch. -/
inductive Reply where
  | watchAdded (token : String) (cfg : UserConfig)
  | tokenNotFound
  | unwatched (token : String)
  | notTracked
  | needWatchFirst
  | minSet (amount : ℚ)
  | invalidValue
  | typeSet (value : String)
  | typeInvalid
deriving DecidableEq, Repr

/-- The `/watch` handler with an argument (bot.py 44-75). `found` is the
outcome of the token-existence check (`get_token_info` not `None`); on
failure nothing changes. A user absent from `watched_tokens` gets an empty
watch set and default settings before the token is added; Python `set.add`
is insert-if-absent. -/
def watchStep (defaultMin : ℚ) (s : BotState) (user : ℤ) (token : String)
    (found : Bool) (now : ℤ) : BotState × Reply :=
  if !found then (s, .tokenNotFound)
  else
    let s1 :=
      match s.watched_tokens user with
      | none =>
        { s with watched_tokens := upd s.watched_tokens user (some []),
                 user_settings := upd s.user_settings user (some ⟨defaultMin, none⟩) }
      | some _ => s
    let toks := (s1.watched_tokens user).getD []
    let s2 :=
      { s1 with
        watched_tokens :=
          upd s1.watched_tokens user (some (if token ∈ toks then toks else toks ++ [token])),
        last_check := upd s1.last_check token (some now) }
    (s2, .watchAdded token ((s2.user_settings user).getD ⟨defaultMin, none⟩))

/-- The `/unwatch` handler with an argument (bot.py 148-163): remove the
token from the user's set when present, and drop its `last_check` entry. -/
def unwatchStep (s : BotState) (user : ℤ) (token : String) : BotState × Reply :=
  match s.watched_tokens user with
  | some toks =>
    if token ∈ toks then
      ({ s with watched_tokens := upd s.watched_tokens user (some (toks.erase token)),
                last_check := upd s.last_check token none },
       .unwatched token)
    else (s, .notTracked)
  | none => (s, .notTracked)

/-- The `/settings min <value>` branch (bot.py 79-82, 104-110). `pyFloat`
models the Python builtin `float(...)`: `some q` when the string parses as
the number `q`, `none` when it raises `ValueError`. The handler lower-cases
its argument before parsing (`context.args[1].lower()`, line 102); the
`min_amount` field is assigned only after parsing succeeds. -/
def settingsMinStep (pyFloat : String → Option ℚ) (s : BotState) (user : ℤ)
    (value : String) : BotState × Reply :=
  match s.user_settings user with
  | none => (s, .needWatchFirst)
  | some cfg =>
    match pyFloat (pyLower value) with
    | some amount =>
      let ns := upd s.user_settings user (some { cfg with min_amount := amount })
      ({ s with user_settings := ns }, .minSet amount)
    | none => (s, .invalidValue)

/-- The `/settings type <value>` branch (bot.py 79-82, 111-116). -/
def settingsTypeStep (s : BotState) (user : ℤ) (value0 : String) : BotState × Reply :=
  match s.user_settings user with
  | none => (s, .needWatchFirst)
  | some cfg =>
    let value := pyLower value0
    if value = "buy" ∨ value = "sell" then
      let ns := upd s.user_settings user (some { cfg with transaction_type := some value })
      ({ s with user_settings := ns }, .typeSet value)
    else (s, .typeInvalid)

/-- The state-mutating chat commands. Argument-missing paths, `/settings`
with no or one argument, `/start`, `/help`, `/list`, `/last_tx` and the
polling job leave the three dicts untouched, so they are omitted without
affecting reachability of states. -/
inductive Cmd where
  | watch (user : ℤ) (token : String) (found : Bool) (now : ℤ)
  | unwatch (user : ℤ) (token : String)
  | settingsMin (user : ℤ) (value : String)
  | settingsType (user : ℤ) (value : String)

/-- Dispatch of one command (bot.py 259-265 handler registration). -/
def step (pyFloat : String → Option ℚ) (defaultMin : ℚ) (s : BotState) :
    Cmd → BotState × Reply
  | .watch u t found now => watchStep defaultMin s u t found now
  | .unwatch u t => unwatchStep s u t
  | .settingsMin u v => settingsMinStep pyFloat s u v
  | .settingsType u v => settingsTypeStep s u v

/-- Run a sequence of commands from a state. -/
def run (pyFloat : String → Option ℚ) (defaultMin : ℚ) :
    BotState → List Cmd → BotState
  | s, [] => s
  | s, c :: cs => run pyFloat defaultMin (step pyFloat defaultMin s c).1 cs

/-- A concrete instance of the `float(...)` oracle for closed theorems:
`float("-5")` is `-5.0`, `float("150")` is `150.0`, and `float("abc")`
raises `ValueError`. -/
def pyFloatDemo : String → Option ℚ :=
  fun v => if v = "-5" then some (-5) else if v = "150" then some 150 else none

/-- Non-negativity side condition on one command: a `/settings min` command
only ever parses to a non-negative amount. -/
def cmdMinNonneg (pyFloat : String → Option ℚ) : Cmd → Prop
  | .settingsMin _ v => ∀ q, pyFloat (pyLower v) = some q → 0 ≤ q
  | _ => True

/-- Hypothesis of the no-division-by-zero claim on one interval's data:
counts are non-negative when present, and `buys` is present whenever
`sells` is. -/
def goodTxnData (td : TxnData) : Prop :=
  (∀ b, td.buys = some b → 0 ≤ b) ∧
  (∀ s, td.sells = some s → 0 ≤ s ∧ td.buys.isSome)

/-- Every stored config has a non-negative minimum amount. -/
def MinInvariant (s : BotState) : Prop :=
  ∀ u cfg, s.user_settings u = some cfg → 0 ≤ cfg.min_amount

/-- Every user present in `watched_tokens` has a config in `user_settings`. -/
def ConfiguredInvariant (s : BotState) : Prop :=
  ∀ u, (s.watched_tokens u).isSome → (s.user_settings u).isSome

end Fn1

/-! ## Theorems -/

namespace Fn1

theorem mem_filterTransactions {now min_amount : ℚ} {transaction_type : Option String}
    {time_window : ℤ} {txs : List Tx} {tx : Tx} :
    tx ∈ filterTransactions now min_amount transaction_type time_window txs ↔
      tx ∈ txs ∧ timeExcludes now time_window tx = false ∧
        typeExcludes transaction_type tx = false ∧
        amountExcludes min_amount tx = false := by
  simp only [filterTransactions, List.mem_filter, passesFilter, Bool.and_eq_true,
    Bool.not_eq_true', and_assoc]

/-- C1: For every transaction list, minimum amount `m`, and transaction `tx` in the
list, the amount guard of the filter excludes `tx` iff `tx.amountUsd < m`; and a
transaction with `tx.amountUsd = m` that the other two guards pass is in the output. -/
theorem amount_guard_iff_lt_and_boundary_included
    (now m : ℚ) (transaction_type : Option String) (time_window : ℤ)
    (txs : List Tx) (tx : Tx) (htx : tx ∈ txs) :
    (amountExcludes m tx = true ↔ tx.amountUsd < m) ∧
    (tx.amountUsd = m →
      timeExcludes now time_window tx = false →
      typeExcludes transaction_type tx = false →
      tx ∈ filterTransactions now m transaction_type time_window txs) := by
  constructor
  · simp [amountExcludes]
  · intro heq htime htype
    refine mem_filterTransactions.mpr ⟨htx, htime, htype, ?_⟩
    simp [amountExcludes, heq]

/-- Concrete instance of the C1 theorem: a transaction whose amount equals the
minimum exactly survives the filter. -/
theorem amount_guard_boundary_witness :
    Tx.mk "buy" 150 0 ∈ filterTransactions 0 150 none 3600 [Tx.mk "buy" 150 0] :=
  (amount_guard_iff_lt_and_boundary_included 0 150 none 3600
      [Tx.mk "buy" 150 0] (Tx.mk "buy" 150 0) (List.Mem.head _)).2 rfl
    (by norm_num [timeExcludes]) rfl

/-- C2: with a configured direction `d ∈ {buy, sell}` every transaction in the
filter's output has that type up to lower-casing — in particular a
buy/sell-typed transaction (as all synthesized ones are) in the output has
type exactly `d` — and with no configured direction the direction guard
excludes nothing. -/
theorem direction_guard_spec (now m : ℚ) (time_window : ℤ) :
    (∀ d tx txs, (d = "buy" ∨ d = "sell") →
      tx ∈ filterTransactions now m (some d) time_window txs →
      pyLower tx.type = d) ∧
    (∀ d tx txs, (d = "buy" ∨ d = "sell") →
      (tx.type = "buy" ∨ tx.type = "sell") →
      tx ∈ filterTransactions now m (some d) time_window txs →
      tx.type = d) ∧
    (∀ tx : Tx, typeExcludes none tx = false) := by
  have h1 : ∀ d tx txs, (d = "buy" ∨ d = "sell") →
      tx ∈ filterTransactions now m (some d) time_window txs →
      pyLower tx.type = d := by
    intro d tx txs hd hmem
    have htype := (mem_filterTransactions.mp hmem).2.2.1
    rcases hd with rfl | rfl <;>
    · simp only [typeExcludes, ne_eq, Bool.and_eq_false_iff, decide_eq_false_iff_not,
        Decidable.not_not] at htype
      rcases htype with h | h
      · exact absurd h (by decide)
      · rw [h]; decide
  refine ⟨h1, ?_, fun tx => rfl⟩
  intro d tx txs hd hty hmem
  have hlow := h1 d tx txs hd hmem
  rcases hty with h | h <;> rw [h] at hlow ⊢ <;> rw [← hlow] <;> decide

/-- Concrete instance of the C2 theorem: with direction `sell` configured,
surviving transactions have type `sell` (up to case), and the unconfigured
guard passes a buy. -/
theorem direction_guard_witness :
    pyLower (Tx.mk "SELL" 5 0).type = "sell" ∧
      (Tx.mk "sell" 5 0).type = "sell" ∧
      typeExcludes none (Tx.mk "buy" 5 0) = false :=
  ⟨(direction_guard_spec 0 1 3600).1 "sell" (Tx.mk "SELL" 5 0)
      [Tx.mk "SELL" 5 0] (Or.inr rfl)
      (by simp [filterTransactions, passesFilter, List.filter, timeExcludes,
        typeExcludes, amountExcludes, pyLower]; norm_num),
   (direction_guard_spec 0 1 3600).2.1 "sell" (Tx.mk "sell" 5 0)
      [Tx.mk "sell" 5 0] (Or.inr rfl) (Or.inr rfl)
      (by simp [filterTransactions, passesFilter, List.filter, timeExcludes,
        typeExcludes, amountExcludes, pyLower]; norm_num),
   (direction_guard_spec 0 1 3600).2.2 (Tx.mk "buy" 5 0)⟩

/-- C3: a transaction timestamped more than `w` seconds before now is excluded
from the filter's output; one timestamped exactly `w` seconds before now is not
time-excluded, and is included whenever the other two guards pass. -/
theorem time_window_guard_spec (now m : ℚ) (transaction_type : Option String) (w : ℤ) :
    (∀ (tx : Tx) (txs : List Tx), now - (tx.timestamp : ℚ) > (w : ℚ) →
      tx ∉ filterTransactions now m transaction_type w txs) ∧
    (∀ (tx : Tx) (txs : List Tx), tx ∈ txs → now - (tx.timestamp : ℚ) = (w : ℚ) →
      typeExcludes transaction_type tx = false →
      amountExcludes m tx = false →
      tx ∈ filterTransactions now m transaction_type w txs) := by
  constructor
  · intro tx txs hold hmem
    have htime := (mem_filterTransactions.mp hmem).2.1
    simp only [timeExcludes, decide_eq_false_iff_not, not_lt] at htime
    exact absurd hold (not_lt.mpr htime)
  · intro tx txs htx hexact htype hamt
    refine mem_filterTransactions.mpr ⟨htx, ?_, htype, hamt⟩
    simp [timeExcludes, hexact]

/-- Concrete instance of the C3 theorem: with a 3600 s window and now = 7200,
a transaction stamped 0 (7200 s old) is dropped and one stamped 3600
(exactly 3600 s old) survives. -/
theorem time_window_guard_witness :
    Tx.mk "buy" 5 0 ∉ filterTransactions 7200 1 none 3600 [Tx.mk "buy" 5 0] ∧
      Tx.mk "buy" 5 3600 ∈ filterTransactions 7200 1 none 3600 [Tx.mk "buy" 5 3600] :=
  ⟨(time_window_guard_spec 7200 1 none 3600).1 (Tx.mk "buy" 5 0)
      [Tx.mk "buy" 5 0] (by norm_num),
   (time_window_guard_spec 7200 1 none 3600).2 (Tx.mk "buy" 5 3600)
      [Tx.mk "buy" 5 3600] (List.Mem.head _) (by norm_num) rfl rfl⟩

/-- C4: the filtering step returns a sublist of its input (so relative order is
preserved) and is idempotent for the same parameters, including the same now. -/
theorem filter_sublist_and_idempotent (now m : ℚ) (transaction_type : Option String)
    (time_window : ℤ) (txs : List Tx) :
    List.Sublist (filterTransactions now m transaction_type time_window txs) txs ∧
    filterTransactions now m transaction_type time_window
        (filterTransactions now m transaction_type time_window txs) =
      filterTransactions now m transaction_type time_window txs := by
  constructor
  · exact List.filter_sublist txs
  · apply List.filter_eq_self.mpr
    intro tx hmem
    exact List.of_mem_filter hmem

end Fn1

namespace Fn1

theorem synthBuys_both (synthNow : ℤ) (vol : ℚ) (b s : ℕ) :
    synthBuys synthNow vol ⟨some (b : ℤ), some (s : ℤ)⟩ =
      Except.ok (List.replicate b ⟨"buy", vol / ((b : ℚ) + (s : ℚ)), synthNow⟩) := by
  unfold synthBuys pyDiv
  rcases Nat.eq_zero_or_pos b with rfl | hb
  · simp
  · have hble : ¬ ((b : ℤ) ≤ 0) := by omega
    have hne : ¬ ((b : ℤ) + (some (s : ℤ)).getD 0 = 0) := by
      simp only [Option.getD_some]; omega
    simp only [Option.getD_some] at hne ⊢
    rw [if_neg hble, if_neg hne]
    simp only [Bind.bind, Except.bind, Int.toNat_natCast]
    norm_num

theorem synthSells_both (synthNow : ℤ) (vol : ℚ) (b s : ℕ) :
    synthSells synthNow vol ⟨some (b : ℤ), some (s : ℤ)⟩ =
      Except.ok (List.replicate s ⟨"sell", vol / ((b : ℚ) + (s : ℚ)), synthNow⟩) := by
  unfold synthSells pyDiv
  rcases Nat.eq_zero_or_pos s with rfl | hs
  · simp
  · have hsle : ¬ ((s : ℤ) ≤ 0) := by omega
    have hne : ¬ ((b : ℤ) + (some (s : ℤ)).getD 0 = 0) := by
      simp only [Option.getD_some]; omega
    simp only [Option.getD_some] at hne ⊢
    rw [if_neg hsle, if_neg hne]
    simp only [Bind.bind, Except.bind, Int.toNat_natCast]
    norm_num

end Fn1

namespace Fn1

theorem interval_synthesis_aux :
    synthesize 0 (fun t => if t = "h1" then (500 : ℚ) else 0)
        [("h1", TxnData.mk (some 3) (some 2))] =
      Except.ok [⟨"buy", 100, 0⟩, ⟨"buy", 100, 0⟩, ⟨"buy", 100, 0⟩,
        ⟨"sell", 100, 0⟩, ⟨"sell", 100, 0⟩] := by
  have hb := synthBuys_both 0 500 3 2
  have hs := synthSells_both 0 500 3 2
  norm_num at hb hs
  simp [synthesize, hb, hs, Bind.bind, Except.bind, List.replicate]

/-- C5: an interval recording `b` buys, `s` sells (both fields present) and
volume `v` synthesizes exactly `b` buy transactions followed by `s` sell
transactions, each of amount `v / (b + s)` and timestamped at call time; and
in the concrete scenario (buys 3, sells 2, volume 500, minimum 150, no
direction, 3600 s window) `get_recent_transactions` returns the empty list. -/
theorem interval_synthesis_spec (synthNow : ℤ) (volume : String → ℚ) (tf : String)
    (b s : ℕ) :
    synthesize synthNow volume [(tf, ⟨some (b : ℤ), some (s : ℤ)⟩)] =
      Except.ok
        (List.replicate b ⟨"buy", volume tf / ((b : ℚ) + (s : ℚ)), synthNow⟩ ++
          List.replicate s ⟨"sell", volume tf / ((b : ℚ) + (s : ℚ)), synthNow⟩) ∧
    get_recent_transactions
        (.success 200 ⟨some [⟨100, some "bsc", some "0xpair"⟩]⟩)
        (.success 200 ⟨some [⟨[("h1", ⟨some 3, some 2⟩)],
          fun t => if t = "h1" then 500 else 0⟩]⟩)
        0 0 150 none 3600 = [] := by
  constructor
  · show (do
        let bs ← synthBuys synthNow (volume tf) ⟨some (b : ℤ), some (s : ℤ)⟩
        let ss ← synthSells synthNow (volume tf) ⟨some (b : ℤ), some (s : ℤ)⟩
        let tl ← synthesize synthNow volume []
        Except.ok (bs ++ ss ++ tl)) = _
    rw [synthBuys_both, synthSells_both]
    simp [synthesize, Bind.bind, Except.bind]
  · norm_num [get_recent_transactions, get_recent_transactions_body, pyCatchNil,
      sortPairs, List.mergeSort_singleton, interval_synthesis_aux, Bind.bind,
      Except.bind, filterTransactions, List.filter, passesFilter,
      timeExcludes, typeExcludes, amountExcludes]

end Fn1

namespace Fn1

theorem synthBuys_isOk (synthNow : ℤ) (vol : ℚ) (td : TxnData)
    (h : goodTxnData td) : ∃ l, synthBuys synthNow vol td = Except.ok l := by
  cases hb : td.buys with
  | none => exact ⟨[], by simp [synthBuys, hb]⟩
  | some b =>
    by_cases hble : b ≤ 0
    · exact ⟨[], by simp [synthBuys, hb, hble]⟩
    · have hsnn : 0 ≤ td.sells.getD 0 := by
        cases hs : td.sells with
        | none => simp
        | some s => simpa using (h.2 s hs).1
      have hne : ¬ (b + td.sells.getD 0 = 0) := by omega
      refine ⟨List.replicate b.toNat
        ⟨"buy", vol / (((b + td.sells.getD 0 : ℤ)) : ℚ), synthNow⟩, ?_⟩
      simp [synthBuys, hb, hble, pyDiv, hne, Bind.bind, Except.bind]

theorem synthSells_isOk (synthNow : ℤ) (vol : ℚ) (td : TxnData)
    (h : goodTxnData td) : ∃ l, synthSells synthNow vol td = Except.ok l := by
  cases hs : td.sells with
  | none => exact ⟨[], by simp [synthSells, hs]⟩
  | some s =>
    by_cases hsle : s ≤ 0
    · exact ⟨[], by simp [synthSells, hs, hsle]⟩
    · obtain ⟨hsnn, hbsome⟩ := h.2 s hs
      cases hb : td.buys with
      | none => rw [hb] at hbsome; simp at hbsome
      | some b =>
        have hbnn : 0 ≤ b := h.1 b hb
        have hne : ¬ (b + s = 0) := by omega
        refine ⟨List.replicate s.toNat
          ⟨"sell", vol / (((b + s : ℤ)) : ℚ), synthNow⟩, ?_⟩
        simp [synthSells, hs, hsle, hb, pyDiv, hne, Bind.bind, Except.bind]

/-- C10: for provider interval data with non-negative counts where `buys` is
present whenever `sells` is, the synthesis loop never raises: in particular
every division it performs has a non-zero (≥ 1) denominator, because the buy
branch divides only when `buys ≥ 1` and the sell branch only when
`sells ≥ 1` with `buys` present. -/
theorem synthesis_no_division_by_zero (synthNow : ℤ) (volume : String → ℚ)
    (txns : List (String × TxnData)) (h : ∀ p ∈ txns, goodTxnData p.2) :
    ∃ txs, synthesize synthNow volume txns = Except.ok txs := by
  induction txns with
  | nil => exact ⟨[], rfl⟩
  | cons p rest ih =>
    obtain ⟨tf, td⟩ := p
    obtain ⟨bs, hbs⟩ := synthBuys_isOk synthNow (volume tf) td (h _ (List.mem_cons_self _ _))
    obtain ⟨ss, hss⟩ := synthSells_isOk synthNow (volume tf) td (h _ (List.mem_cons_self _ _))
    obtain ⟨tl, htl⟩ := ih (fun q hq => h q (List.mem_cons_of_mem _ hq))
    exact ⟨bs ++ ss ++ tl, by simp [synthesize, hbs, hss, htl, Bind.bind, Except.bind]⟩

/-- Concrete instance of the C10 theorem: synthesis succeeds on the interval
statistics `{buys: 3, sells: 2}`. -/
theorem synthesis_no_division_by_zero_witness :
    ∃ txs, synthesize 0 (fun _ => (500 : ℚ))
      [("h24", TxnData.mk (some 3) (some 2))] = Except.ok txs :=
  synthesis_no_division_by_zero 0 (fun _ => (500 : ℚ))
    [("h24", TxnData.mk (some 3) (some 2))]
    (by
      intro p hp
      simp only [List.mem_singleton] at hp
      subst hp
      refine ⟨fun b hb => ?_, fun s hs => ?_⟩
      · simp only [Option.some.injEq] at hb
        omega
      · simp only [Option.some.injEq] at hs
        exact ⟨by omega, by simp⟩)

end Fn1

namespace Fn1

theorem grt_nil_of_body_error (resp1 : Fetch TokensBody) (resp2 : Fetch PairsBody)
    (synthNow : ℤ) (filterNow : ℚ) (ma : ℚ) (ty : Option String) (tw : ℤ)
    (e : PyErr)
    (h : get_recent_transactions_body resp1 resp2 synthNow filterNow ma ty tw =
      Except.error e) :
    get_recent_transactions resp1 resp2 synthNow filterNow ma ty tw = [] := by
  unfold get_recent_transactions
  rw [h]
  rfl

theorem grt_resp2_failure (resp1 : Fetch TokensBody) (resp2 : Fetch PairsBody)
    (synthNow : ℤ) (filterNow : ℚ) (ma : ℚ) (ty : Option String) (tw : ℤ)
    (h : ∀ b2, resp2 ≠ Fetch.success 200 b2) :
    get_recent_transactions resp1 resp2 synthNow filterNow ma ty tw = [] := by
  unfold get_recent_transactions get_recent_transactions_body
  rcases resp1 with _ | st | ⟨st, body⟩
  · rfl
  · dsimp only
    split <;> rfl
  · dsimp only
    split
    · rfl
    · rcases hp : body.pairs.getD [] with _ | ⟨p, ps⟩
      · simp [hp, pyCatchNil]
      · simp only [hp]
        rcases hcid : ((sortPairs (p :: ps)).headD p).chainId with _ | cid
        · simp [hcid, pyCatchNil]
        · simp only [hcid]
          rcases hpa : ((sortPairs (p :: ps)).headD p).pairAddress with _ | pa
          · simp [hpa, pyCatchNil]
          · simp only [hpa]
            rcases resp2 with _ | st2 | ⟨st2, body2⟩
            · rfl
            · dsimp only; split <;> rfl
            · have hst2 : st2 ≠ 200 := by
                intro hc; exact h body2 (by rw [hc])
              simp [hst2, pyCatchNil]

/-- C6: the Market Data Client never lets a failure escape: on a transport
error, a malformed (unparseable) body, or a non-200 status on either request
`get_recent_transactions` returns `[]`; any exception raised inside its body
(missing field, division by zero) is caught and also yields `[]`; and
`get_token_info` returns `None` on a transport error, a malformed body, a
non-200 status, or a missing/empty `pairs` field. -/
theorem client_failure_policy :
    (∀ (resp2 : Fetch PairsBody) (sn : ℤ) (fn ma : ℚ) (ty : Option String) (tw : ℤ),
      get_recent_transactions .transportError resp2 sn fn ma ty tw = []) ∧
    (∀ (st : ℤ) (resp2 : Fetch PairsBody) (sn : ℤ) (fn ma : ℚ) (ty : Option String)
      (tw : ℤ),
      get_recent_transactions (.malformed st) resp2 sn fn ma ty tw = []) ∧
    (∀ (st : ℤ) (body : TokensBody) (resp2 : Fetch PairsBody) (sn : ℤ) (fn ma : ℚ)
      (ty : Option String) (tw : ℤ), st ≠ 200 →
      get_recent_transactions (.success st body) resp2 sn fn ma ty tw = []) ∧
    (∀ (resp1 : Fetch TokensBody) (sn : ℤ) (fn ma : ℚ) (ty : Option String) (tw : ℤ),
      get_recent_transactions resp1 .transportError sn fn ma ty tw = []) ∧
    (∀ (resp1 : Fetch TokensBody) (st2 : ℤ) (sn : ℤ) (fn ma : ℚ) (ty : Option String)
      (tw : ℤ),
      get_recent_transactions resp1 (.malformed st2) sn fn ma ty tw = []) ∧
    (∀ (resp1 : Fetch TokensBody) (st2 : ℤ) (body2 : PairsBody) (sn : ℤ) (fn ma : ℚ)
      (ty : Option String) (tw : ℤ), st2 ≠ 200 →
      get_recent_transactions resp1 (.success st2 body2) sn fn ma ty tw = []) ∧
    (∀ (resp1 : Fetch TokensBody) (resp2 : Fetch PairsBody) (sn : ℤ) (fn ma : ℚ)
      (ty : Option String) (tw : ℤ) (e : PyErr),
      get_recent_transactions_body resp1 resp2 sn fn ma ty tw = Except.error e →
      get_recent_transactions resp1 resp2 sn fn ma ty tw = []) ∧
    (get_token_info .transportError = none) ∧
    (∀ st : ℤ, get_token_info (.malformed st) = none) ∧
    (∀ (st : ℤ) (body : TokensBody), st ≠ 200 →
      get_token_info (.success st body) = none) ∧
    (∀ st : ℤ, get_token_info (.success st ⟨none⟩) = none) ∧
    (∀ st : ℤ, get_token_info (.success st ⟨some []⟩) = none) := by
  refine ⟨?_, ?_, ?_, ?_, ?_, ?_, ?_, rfl, fun _ => rfl, ?_, ?_, ?_⟩
  · intro resp2 sn fn ma ty tw
    exact grt_nil_of_body_error _ _ _ _ _ _ _ .transport rfl
  · intro st resp2 sn fn ma ty tw
    unfold get_recent_transactions get_recent_transactions_body
    dsimp only
    split <;> rfl
  · intro st body resp2 sn fn ma ty tw hst
    unfold get_recent_transactions get_recent_transactions_body
    simp [hst, pyCatchNil]
  · intro resp1 sn fn ma ty tw
    exact grt_resp2_failure _ _ _ _ _ _ _ (fun b2 h => by cases h)
  · intro resp1 st2 sn fn ma ty tw
    exact grt_resp2_failure _ _ _ _ _ _ _ (fun b2 h => by cases h)
  · intro resp1 st2 body2 sn fn ma ty tw hst2
    exact grt_resp2_failure _ _ _ _ _ _ _
      (fun b2 h => by cases h; exact hst2 rfl)
  · exact grt_nil_of_body_error
  · intro st body hst
    unfold get_token_info
    simp [hst]
  · intro st
    unfold get_token_info
    dsimp only
    split <;> rfl
  · intro st
    unfold get_token_info
    dsimp only
    split <;> rfl

/-- Concrete instance of the C6 theorem: a 404 on the first request and a 500
on the second each yield the empty list, and a 404 snapshot query yields
`None`. -/
theorem client_failure_policy_witness :
    get_recent_transactions (.success 404 ⟨none⟩) .transportError 0 0 0 none 3600 = [] ∧
    get_recent_transactions (.success 200 ⟨some [⟨1, some "c", some "p"⟩]⟩)
      (.success 500 ⟨none⟩) 0 0 0 none 3600 = [] ∧
    get_token_info (.success 404 ⟨none⟩) = none :=
  ⟨client_failure_policy.2.2.1 404 ⟨none⟩ .transportError 0 0 0 none 3600 (by decide),
   client_failure_policy.2.2.2.2.2.1 (.success 200 ⟨some [⟨1, some "c", some "p"⟩]⟩)
     500 ⟨none⟩ 0 0 0 none 3600 (by decide),
   client_failure_policy.2.2.2.2.2.2.2.2.2.1 404 ⟨none⟩ (by decide)⟩

end Fn1

namespace Fn1

theorem step_preserves_MinInvariant (pyFloat : String → Option ℚ) (defaultMin : ℚ)
    (hdef : 0 ≤ defaultMin) (s : BotState) (hs : MinInvariant s) (c : Cmd)
    (hc : cmdMinNonneg pyFloat c) :
    MinInvariant (step pyFloat defaultMin s c).1 := by
  cases c with
  | watch u t found now =>
    intro v cfg hcfg
    cases found with
    | false => exact hs v cfg hcfg
    | true =>
      simp only [step] at hcfg
      unfold watchStep at hcfg
      rw [if_neg (by simp)] at hcfg
      dsimp only at hcfg
      cases hw : s.watched_tokens u with
      | none =>
        rw [hw] at hcfg
        dsimp only [upd] at hcfg
        by_cases hv : v = u
        · rw [if_pos hv] at hcfg
          injection hcfg with h
          cases h
          exact hdef
        · rw [if_neg hv] at hcfg
          exact hs v cfg hcfg
      | some toks =>
        rw [hw] at hcfg
        exact hs v cfg hcfg
  | unwatch u t =>
    intro v cfg hcfg
    simp only [step] at hcfg
    unfold unwatchStep at hcfg
    cases hw : s.watched_tokens u with
    | none => rw [hw] at hcfg; exact hs v cfg hcfg
    | some toks =>
      rw [hw] at hcfg
      dsimp only at hcfg
      by_cases ht : t ∈ toks
      · rw [if_pos ht] at hcfg
        exact hs v cfg hcfg
      · rw [if_neg ht] at hcfg
        exact hs v cfg hcfg
  | settingsMin u val =>
    intro v cfg hcfg
    simp only [step] at hcfg
    unfold settingsMinStep at hcfg
    cases hu : s.user_settings u with
    | none => rw [hu] at hcfg; exact hs v cfg hcfg
    | some cfg0 =>
      rw [hu] at hcfg
      dsimp only at hcfg
      cases hq : pyFloat (pyLower val) with
      | none => rw [hq] at hcfg; exact hs v cfg hcfg
      | some q =>
        rw [hq] at hcfg
        dsimp only [upd] at hcfg
        by_cases hv : v = u
        · rw [if_pos hv] at hcfg
          injection hcfg with h
          cases h
          exact hc q hq
        · rw [if_neg hv] at hcfg
          exact hs v cfg hcfg
  | settingsType u val =>
    intro v cfg hcfg
    simp only [step] at hcfg
    unfold settingsTypeStep at hcfg
    cases hu : s.user_settings u with
    | none => rw [hu] at hcfg; exact hs v cfg hcfg
    | some cfg0 =>
      rw [hu] at hcfg
      dsimp only at hcfg
      by_cases hval : pyLower val = "buy" ∨ pyLower val = "sell"
      · rw [if_pos hval] at hcfg
        dsimp only [upd] at hcfg
        by_cases hv : v = u
        · rw [if_pos hv] at hcfg
          injection hcfg with h
          cases h
          exact hs u cfg0 hu
        · rw [if_neg hv] at hcfg
          exact hs v cfg hcfg
      · rw [if_neg hval] at hcfg
        exact hs v cfg hcfg

theorem run_preserves_MinInvariant (pyFloat : String → Option ℚ) (defaultMin : ℚ)
    (hdef : 0 ≤ defaultMin) (cmds : List Cmd) :
    ∀ s : BotState, MinInvariant s → (∀ c ∈ cmds, cmdMinNonneg pyFloat c) →
      MinInvariant (run pyFloat defaultMin s cmds) := by
  induction cmds with
  | nil => intro s hs _; exact hs
  | cons c cs ih =>
    intro s hs hc
    exact ih _ (step_preserves_MinInvariant pyFloat defaultMin hdef s hs c
      (hc c (List.mem_cons_self _ _))) (fun c' h' => hc c' (List.mem_cons_of_mem _ h'))

/-- C7 counterexample: starting from the empty state, a successful `/watch`
followed by `/settings min -5` reaches a state whose stored minimum amount is
`-5 < 0`, so the claimed non-negativity invariant fails: the handler stores
any parsed float without a sign check (bot.py 104-110). -/
theorem negative_min_amount_reachable :
    (run pyFloatDemo 1000 initState
        [Cmd.watch 0 "tok" true 0, Cmd.settingsMin 0 "-5"]).user_settings 0 =
      some ⟨-5, none⟩ ∧ ¬ (0 : ℚ) ≤ (-5 : ℚ) := by
  constructor
  · rfl
  · norm_num

/-- C7 (amended): provided the configured default minimum is non-negative and
every `/settings min` command in the sequence parses to a non-negative amount,
every reachable state stores only non-negative minimum amounts. (As stated the
claim fails: a `/settings min` with a negative amount is stored unchecked.) -/
theorem min_amount_nonneg_of_nonneg_inputs (pyFloat : String → Option ℚ)
    (defaultMin : ℚ) (hdef : 0 ≤ defaultMin) (cmds : List Cmd)
    (hcmds : ∀ c ∈ cmds, cmdMinNonneg pyFloat c) (u : ℤ) (cfg : UserConfig)
    (hcfg : (run pyFloat defaultMin initState cmds).user_settings u = some cfg) :
    0 ≤ cfg.min_amount :=
  run_preserves_MinInvariant pyFloat defaultMin hdef cmds initState
    (fun v cfg0 h => by simp [initState] at h) hcmds u cfg hcfg

/-- Concrete instance of the amended C7 theorem: after one `/watch`, the
default minimum 1000 is stored and is non-negative. -/
theorem min_amount_nonneg_witness :
    (0 : ℚ) ≤ (UserConfig.mk 1000 none).min_amount :=
  min_amount_nonneg_of_nonneg_inputs pyFloatDemo 1000 (by norm_num)
    [Cmd.watch 0 "tok" true 0]
    (by
      intro c hc
      simp only [List.mem_singleton] at hc
      subst hc
      trivial)
    0 (UserConfig.mk 1000 none) rfl

end Fn1

namespace Fn1

theorem step_preserves_ConfiguredInvariant (pyFloat : String → Option ℚ)
    (defaultMin : ℚ) (s : BotState) (hs : ConfiguredInvariant s) (c : Cmd) :
    ConfiguredInvariant (step pyFloat defaultMin s c).1 := by
  cases c with
  | watch u t found now =>
    intro v hv
    cases found with
    | false => exact hs v hv
    | true =>
      simp only [step] at hv ⊢
      unfold watchStep at hv ⊢
      rw [if_neg (by simp)] at hv ⊢
      dsimp only at hv ⊢
      cases hw : s.watched_tokens u with
      | none =>
        rw [hw] at hv
        dsimp only at hv ⊢
        dsimp only [upd] at hv ⊢
        by_cases hvu : v = u
        · rw [if_pos hvu]
          simp
        · simp only [if_neg hvu] at hv ⊢
          exact hs v hv
      | some toks =>
        rw [hw] at hv
        dsimp only at hv ⊢
        dsimp only [upd] at hv
        by_cases hvu : v = u
        · subst hvu
          exact hs v (by rw [hw]; rfl)
        · simp only [if_neg hvu] at hv
          exact hs v hv
  | unwatch u t =>
    intro v hv
    simp only [step] at hv ⊢
    unfold unwatchStep at hv ⊢
    cases hw : s.watched_tokens u with
    | none =>
      rw [hw] at hv
      dsimp only at hv ⊢
      exact hs v hv
    | some toks =>
      rw [hw] at hv
      dsimp only at hv ⊢
      by_cases ht : t ∈ toks
      · rw [if_pos ht] at hv ⊢
        dsimp only [upd] at hv ⊢
        by_cases hvu : v = u
        · subst hvu
          exact hs v (by rw [hw]; rfl)
        · simp only [if_neg hvu] at hv
          exact hs v hv
      · rw [if_neg ht] at hv ⊢
        exact hs v hv
  | settingsMin u val =>
    intro v hv
    simp only [step] at hv ⊢
    unfold settingsMinStep at hv ⊢
    cases hu : s.user_settings u with
    | none =>
      rw [hu] at hv
      dsimp only at hv ⊢
      exact hs v hv
    | some cfg0 =>
      rw [hu] at hv
      dsimp only at hv ⊢
      cases hq : pyFloat (pyLower val) with
      | none =>
        rw [hq] at hv
        dsimp only at hv ⊢
        exact hs v hv
      | some q =>
        rw [hq] at hv
        dsimp only at hv ⊢
        dsimp only [upd] at hv ⊢
        by_cases hvu : v = u
        · rw [if_pos hvu]
          simp
        · rw [if_neg hvu]
          exact hs v hv
  | settingsType u val =>
    intro v hv
    simp only [step] at hv ⊢
    unfold settingsTypeStep at hv ⊢
    cases hu : s.user_settings u with
    | none =>
      rw [hu] at hv
      dsimp only at hv ⊢
      exact hs v hv
    | some cfg0 =>
      rw [hu] at hv
      dsimp only at hv ⊢
      by_cases hval : pyLower val = "buy" ∨ pyLower val = "sell"
      · rw [if_pos hval] at hv ⊢
        dsimp only [upd] at hv ⊢
        by_cases hvu : v = u
        · rw [if_pos hvu]
          simp
        · rw [if_neg hvu]
          exact hs v hv
      · rw [if_neg hval] at hv ⊢
        exact hs v hv

theorem run_preserves_ConfiguredInvariant (pyFloat : String → Option ℚ)
    (defaultMin : ℚ) (cmds : List Cmd) :
    ∀ s : BotState, ConfiguredInvariant s →
      ConfiguredInvariant (run pyFloat defaultMin s cmds) := by
  induction cmds with
  | nil => intro s hs; exact hs
  | cons c cs ih =>
    intro s hs
    exact ih _ (step_preserves_ConfiguredInvariant pyFloat defaultMin s hs c)

/-- C8: in every state reachable by watch/unwatch/settings sequences, a user
with a non-empty watch set has a settings entry (the model keys settings by
user, so that entry is unique by construction); and a user's first successful
`/watch` (user absent from `watched_tokens`) initializes the settings to the
process defaults: the configured minimum amount and no direction. -/
theorem watcher_config_invariant (pyFloat : String → Option ℚ) (defaultMin : ℚ) :
    (∀ (cmds : List Cmd) (u : ℤ) (toks : List String),
      (run pyFloat defaultMin initState cmds).watched_tokens u = some toks →
      toks ≠ [] →
      ∃ cfg, (run pyFloat defaultMin initState cmds).user_settings u = some cfg) ∧
    (∀ (s : BotState) (u : ℤ) (t : String) (now : ℤ), s.watched_tokens u = none →
      (watchStep defaultMin s u t true now).1.user_settings u =
        some ⟨defaultMin, none⟩) := by
  constructor
  · intro cmds u toks hw _
    have hinv := run_preserves_ConfiguredInvariant pyFloat defaultMin cmds initState
      (fun v hv => by simp [initState] at hv)
    exact Option.isSome_iff_exists.mp (hinv u (by rw [hw]; rfl))
  · intro s u t now hw
    unfold watchStep
    rw [if_neg (by simp)]
    dsimp only
    rw [hw]
    dsimp only [upd]
    rw [if_pos rfl]

/-- Concrete instance of the C8 theorem: after one successful `/watch` the
user has a config, and the first watch from the empty state stores the
defaults (minimum 1000, no direction). -/
theorem watcher_config_invariant_witness :
    (∃ cfg, (run pyFloatDemo 1000 initState
        [Cmd.watch 0 "tok" true 0]).user_settings 0 = some cfg) ∧
    (watchStep 1000 initState 0 "tok" true 0).1.user_settings 0 =
      some ⟨1000, none⟩ :=
  ⟨(watcher_config_invariant pyFloatDemo 1000).1 [Cmd.watch 0 "tok" true 0] 0 ["tok"]
      rfl (by simp),
   (watcher_config_invariant pyFloatDemo 1000).2 initState 0 "tok" 0 rfl⟩

/-- C9: when the `/settings min` argument fails to parse as a number, the
handler replies with the invalid-value message and the state — in particular
the user's config — is unchanged. -/
theorem settings_min_invalid_leaves_config (pyFloat : String → Option ℚ)
    (s : BotState) (u : ℤ) (v : String) (cfg : UserConfig)
    (hcfg : s.user_settings u = some cfg) (hparse : pyFloat (pyLower v) = none) :
    settingsMinStep pyFloat s u v = (s, Reply.invalidValue) := by
  unfold settingsMinStep
  rw [hcfg]
  dsimp only
  rw [hparse]

/-- Concrete instance of the C9 theorem: `/settings min abc` for a user with
a config replies invalid-value and leaves the state unchanged. -/
theorem settings_min_invalid_witness :
    settingsMinStep pyFloatDemo
        (run pyFloatDemo 1000 initState [Cmd.watch 0 "tok" true 0]) 0 "abc" =
      (run pyFloatDemo 1000 initState [Cmd.watch 0 "tok" true 0],
        Reply.invalidValue) :=
  settings_min_invalid_leaves_config pyFloatDemo _ 0 "abc" ⟨1000, none⟩ rfl rfl

end Fn1
